import Mathlib

/-!
Shallow embedding of the Composite order-pricing tree of this repository
(classes `ElementoPedido`, `Producto`, `Caja`, `GestorPedidos` in the
composite-pattern module), together with proofs of the specified
properties.

Modelling decisions:
* JavaScript numbers are modelled as exact rationals (`ℚ`); all prices in
  the programs are small decimal literals.
* JavaScript object identity (the `===` used by `Array.prototype.indexOf`)
  is modelled by tagging every node with a `ref : Nat`: two nodes are the
  same object exactly when their tags coincide.  Structural identity
  ignores the tags.
* `console.log` diagnostics accompanying a rejected `agregar` and a failed
  `remover` are modelled as an `Option OperacionError` result; the mutated
  object is returned explicitly (state passing instead of mutation).
* `GestorPedidos.fechaPedido` (a wall-clock `Date`) is not modelled; no
  specified property mentions it.
-/

/-- The error diagnostics the container operations can emit
(`CapacityExceeded` is the capacity warning logged by `Caja.agregar`,
`NotFound` the missing-element message logged by `Caja.remover`). -/
inductive OperacionError where
  | capacityExceeded
  | notFound
deriving DecidableEq, Repr

/-- The element hierarchy: `producto` embeds class `Producto`
(fields `nombre`, `precio`, `categoria`), `caja` embeds class `Caja`
(fields `nombre`, `costoCaja`, `tipoEmpaque`, `capacidadMaxima`,
`contenido`).  The extra `ref` field models JavaScript object identity. -/
inductive ElementoPedido where
  | producto (ref : Nat) (nombre : String) (precio : ℚ) (categoria : String)
  | caja (ref : Nat) (nombre : String) (costoCaja : ℚ) (tipoEmpaque : String)
      (capacidadMaxima : Nat) (contenido : List ElementoPedido)
deriving Repr

namespace ElementoPedido

/-- The object-identity tag of a node; `===` between two nodes is equality
of their tags. -/
def refDe : ElementoPedido → Nat
  | producto r _ _ _ => r
  | caja r _ _ _ _ _ => r

mutual

/-- Method `Producto.calcularPrecio` returns `this.precio`;
`Caja.calcularPrecio` starts from `this.costoCaja` and adds each
contained element's `calcularPrecio()` in a left-to-right loop. -/
def calcularPrecio : ElementoPedido → ℚ
  | producto _ _ p _ => p
  | caja _ _ costo _ _ contenido => precioAcumulado costo contenido

/-- The accumulation loop of `Caja.calcularPrecio`:
`for (const elemento of this.contenido) precioTotal += elemento.calcularPrecio()`. -/
def precioAcumulado : ℚ → List ElementoPedido → ℚ
  | acc, [] => acc
  | acc, e :: rest => precioAcumulado (acc + calcularPrecio e) rest

end

/-- Method `Caja.agregar(elemento)`: if `this.contenido.length >= this.capacidadMaxima`
the capacity warning is logged and the method returns without mutating;
otherwise `this.contenido.push(elemento)`.  The pair returned here is the
updated object together with the diagnostic (if any). -/
def agregar (c : ElementoPedido) (elemento : ElementoPedido) :
    ElementoPedido × Option OperacionError :=
  match c with
  | caja r n costo t cap contenido =>
      if contenido.length ≥ cap then
        (caja r n costo t cap contenido, some .capacityExceeded)
      else
        (caja r n costo t cap (contenido ++ [elemento]), none)
  | p => (p, none)

/-- Models `Array.prototype.indexOf(elemento)` over `contenido`: the first index
whose entry is `===` to `elemento` (object identity, i.e. equal `ref`
tags), `none` standing for the sentinel `-1`. -/
def jsIndexOf (elemento : ElementoPedido) : List ElementoPedido → Option Nat
  | [] => none
  | x :: xs =>
      if x.refDe = elemento.refDe then some 0
      else (jsIndexOf elemento xs).map (· + 1)

/-- Method `Caja.remover(elemento)`: `indexOf` followed by `splice(indice, 1)` when
found; otherwise the not-found message is logged and nothing changes. -/
def remover (c : ElementoPedido) (elemento : ElementoPedido) :
    ElementoPedido × Option OperacionError :=
  match c with
  | caja r n costo t cap contenido =>
      match jsIndexOf elemento contenido with
      | some indice =>
          (caja r n costo t cap (contenido.eraseIdx indice), none)
      | none => (caja r n costo t cap contenido, some .notFound)
  | p => (p, none)

/-- Method `Caja.obtenerCantidadElementos()` returns `this.contenido.length`
(read through the `contenido` field; a `Producto` has none, rendered as
the empty list purely so the accessor is total). -/
def contenidoDe : ElementoPedido → List ElementoPedido
  | producto _ _ _ _ => []
  | caja _ _ _ _ _ contenido => contenido

/-- The `capacidadMaxima` field (again total, `0` on a `Producto`). -/
def capacidadDe : ElementoPedido → Nat
  | producto _ _ _ _ => 0
  | caja _ _ _ _ cap _ => cap

/-- Method `Caja.estaLlena()` returns `this.contenido.length >= this.capacidadMaxima`. -/
def estaLlena (c : ElementoPedido) : Bool :=
  (contenidoDe c).length ≥ capacidadDe c

/-- Method `Caja.obtenerTodosLosProductos()`: iterates over `this.contenido`,
pushing each `Producto` and splicing in the recursive result of each
`Caja`, in order.  Stated over the `contenido` list. -/
def obtenerTodosLosProductos : List ElementoPedido → List ElementoPedido
  | [] => []
  | producto r n p c :: rest => producto r n p c :: obtenerTodosLosProductos rest
  | caja _ _ _ _ _ contenido :: rest =>
      obtenerTodosLosProductos contenido ++ obtenerTodosLosProductos rest

/-- Method `ElementoPedido.generarIndentacion(nivel)` returns `'  '.repeat(nivel)`:
`nivel` copies of the two-space block. -/
def generarIndentacion : Nat → String
  | 0 => ""
  | n + 1 => "  " ++ generarIndentacion n

/-- Models `Number.prototype.toFixed(2)` on the exact rational value: the number
rounded to hundredths and printed with exactly two digits after the
point.  (The repository only formats small non-negative decimal
literals, where this agrees with JavaScript.) -/
def toFixed2 (q : ℚ) : String :=
  let cents : Int := Int.floor (q * 100 + 1 / 2)
  let fracVal : Nat := cents.natAbs % 100
  let frac := if fracVal < 10 then "0" ++ toString fracVal else toString fracVal
  (if cents < 0 then "-" else "") ++ toString (cents.natAbs / 100) ++ "." ++ frac

mutual

/-- Method `Producto.obtenerDescripcion(nivel)` returns the single line
`{ind}📦 Producto: {nombre} ({categoria}) - ${precio.toFixed(2)}`;
`Caja.obtenerDescripcion(nivel)` builds its own line
`{ind}📦 Caja: {nombre} ({tipoEmpaque}) - Costo base: ${costoCaja.toFixed(2)}`,
appends ` (vacía)` when `contenido.length === 0` and otherwise
` ({length}/{capacidadMaxima} elementos):` followed by the loop over the
children (braces here only describe the interpolated fields). -/
def obtenerDescripcion : ElementoPedido → Nat → String
  | producto _ n p cat, nivel =>
      generarIndentacion nivel ++ "📦 Producto: " ++ n ++ " (" ++ cat ++ ") - $"
        ++ toFixed2 p
  | caja _ n costo t cap contenido, nivel =>
      let propia := generarIndentacion nivel ++ "📦 Caja: " ++ n ++ " (" ++ t
        ++ ") - Costo base: $" ++ toFixed2 costo
      if contenido.length = 0 then propia ++ " (vacía)"
      else
        descripcionHijos
          (propia ++ " (" ++ toString contenido.length ++ "/" ++ toString cap
            ++ " elementos):")
          contenido (nivel + 1)

/-- The child loop of `Caja.obtenerDescripcion`:
`for (const elemento of this.contenido) descripcion += '\n' + elemento.obtenerDescripcion(nivel + 1)`. -/
def descripcionHijos : String → List ElementoPedido → Nat → String
  | acc, [], _ => acc
  | acc, e :: rest, nivel =>
      descripcionHijos (acc ++ "\n" ++ obtenerDescripcion e nivel) rest nivel

end

mutual

/-- Structural identity (from the specified removal contract): equality of
every field except the object-identity tag, recursively. -/
def structEq : ElementoPedido → ElementoPedido → Bool
  | producto _ n p c, producto _ n2 p2 c2 => n == n2 && p == p2 && c == c2
  | caja _ n co t cap cont, caja _ n2 co2 t2 cap2 cont2 =>
      n == n2 && co == co2 && t == t2 && cap == cap2 && structEqL cont cont2
  | _, _ => false

/-- Structural identity of two content lists, pointwise. -/
def structEqL : List ElementoPedido → List ElementoPedido → Bool
  | [], [] => true
  | x :: xs, y :: ys => structEq x y && structEqL xs ys
  | _, _ => false

end

/-- Whether a node is a `Producto` leaf (the `instanceof Producto` test). -/
def esProducto : ElementoPedido → Bool
  | producto _ _ _ _ => true
  | caja _ _ _ _ _ _ => false

mutual

/-- Depth-first, left-to-right preorder listing of all nodes of a subtree
(the traversal order named by the specification). -/
def preordenE : ElementoPedido → List ElementoPedido
  | producto r n p c => [producto r n p c]
  | caja r n co t cap contenido => caja r n co t cap contenido :: preordenL contenido

/-- Preorder listing of a forest, left to right. -/
def preordenL : List ElementoPedido → List ElementoPedido
  | [] => []
  | e :: rest => preordenE e ++ preordenL rest

end

/-- The number of `Producto` leaves anywhere in a forest (the count the
specification compares `obtenerTodosLosProductos().length` against). -/
def contarHojasProducto : List ElementoPedido → Nat
  | [] => 0
  | producto _ _ _ _ :: rest => 1 + contarHojasProducto rest
  | caja _ _ _ _ _ contenido :: rest =>
      contarHojasProducto contenido + contarHojasProducto rest

end ElementoPedido

/-- One mutating call on a `Caja`: `agregar(elemento)` or `remover(elemento)`. -/
inductive Op where
  | agregarOp (elemento : ElementoPedido)
  | removerOp (elemento : ElementoPedido)

/-- Apply one call, keeping the updated object (diagnostics discarded). -/
def aplicarOp (c : ElementoPedido) : Op → ElementoPedido
  | .agregarOp e => (ElementoPedido.agregar c e).1
  | .removerOp e => (ElementoPedido.remover c e).1

/-- Apply a whole call sequence, in order. -/
def aplicarOps (c : ElementoPedido) (ops : List Op) : ElementoPedido :=
  ops.foldl aplicarOp c

/-- Class `GestorPedidos`: the order aggregator, holding `numeroPedido`
and the flat list `elementos` of top-level entries.  (`fechaPedido`, a
wall-clock `Date`, is not modelled.) -/
structure GestorPedidos where
  numeroPedido : String
  elementos : List ElementoPedido

namespace GestorPedidos

/-- Method `GestorPedidos.agregarElemento(elemento)`: `this.elementos.push(elemento)`,
unconditionally. -/
def agregarElemento (g : GestorPedidos) (elemento : ElementoPedido) : GestorPedidos :=
  { g with elementos := g.elementos ++ [elemento] }

/-- The accumulation loop of `GestorPedidos.calcularPrecioTotal`:
`let total = 0; for (const elemento of this.elementos) total += elemento.calcularPrecio()`. -/
def totalAcumulado : ℚ → List ElementoPedido → ℚ
  | acc, [] => acc
  | acc, e :: rest => totalAcumulado (acc + e.calcularPrecio) rest

/-- Method `GestorPedidos.calcularPrecioTotal()`. -/
def calcularPrecioTotal (g : GestorPedidos) : ℚ :=
  totalAcumulado 0 g.elementos

/-- The record returned by `GestorPedidos.obtenerEstadisticas()`. -/
structure Estadisticas where
  totalElementos : Nat
  totalProductos : Nat
  totalCajas : Nat
  precioPromedio : ℚ
deriving Repr

/-- The counting loop of `obtenerEstadisticas`: a `Producto` bumps
`totalProductos`; a `Caja` bumps `totalCajas` and adds
`obtenerTodosLosProductos().length` to `totalProductos`.  The pair is
`(totalProductos, totalCajas)`. -/
def contarElemento : Nat × Nat → ElementoPedido → Nat × Nat
  | (tp, tc), .producto _ _ _ _ => (tp + 1, tc)
  | (tp, tc), .caja _ _ _ _ _ contenido =>
      (tp + (ElementoPedido.obtenerTodosLosProductos contenido).length, tc + 1)

/-- Method `GestorPedidos.obtenerEstadisticas()`: counts as above, then returns
the totals and `precioPromedio = totalElementos > 0 ? precioTotal / totalElementos : 0`. -/
def obtenerEstadisticas (g : GestorPedidos) : Estadisticas :=
  let conteo := g.elementos.foldl contarElemento (0, 0)
  let precioTotal := calcularPrecioTotal g
  let totalElementos := g.elementos.length
  { totalElementos := totalElementos
    totalProductos := conteo.1
    totalCajas := conteo.2
    precioPromedio := if totalElementos > 0 then precioTotal / totalElementos else 0 }

end GestorPedidos

/-! ## The concrete scenario of the specification -/

open ElementoPedido

/-- The Item "Mouse" priced 25.99 of the concrete scenario. -/
def mouse : ElementoPedido := .producto 1 "Mouse" 25.99 "General"

/-- The Item "Keyboard" priced 89.99 of the concrete scenario. -/
def teclado : ElementoPedido := .producto 2 "Keyboard" 89.99 "General"

/-- The Item "Book" priced 45.00 of the concrete scenario. -/
def libro : ElementoPedido := .producto 3 "Book" 45.00 "General"

/-- The Container "Peripherals" (handling cost 5.00, capacity 5) after the
Mouse and the Keyboard have been placed into it via `agregar`. -/
def perifericos : ElementoPedido :=
  (agregar (agregar (.caja 4 "Peripherals" 5.00 "Estándar" 5 []) mouse).1 teclado).1

/-- The outer Container "Shipment" (handling cost 10.00) after the
Peripherals box and the Book have been placed into it via `agregar`. -/
def envio : ElementoPedido :=
  (agregar (agregar (.caja 5 "Shipment" 10.00 "Estándar" 10 []) perifericos).1 libro).1

/-! ## Helper lemmas -/

/-- The `Caja.calcularPrecio` accumulation loop computes the running total
plus the sum of the prices of the remaining elements. -/
theorem precioAcumulado_eq (l : List ElementoPedido) : ∀ acc : ℚ,
    precioAcumulado acc l = acc + (l.map calcularPrecio).sum := by
  induction l with
  | nil => intro acc; simp [precioAcumulado]
  | cons e rest ih => intro acc; simp [precioAcumulado, ih]; ring

/-- The `calcularPrecioTotal` accumulation loop, likewise. -/
theorem totalAcumulado_eq (l : List ElementoPedido) : ∀ acc : ℚ,
    GestorPedidos.totalAcumulado acc l = acc + (l.map calcularPrecio).sum := by
  induction l with
  | nil => intro acc; simp [GestorPedidos.totalAcumulado]
  | cons e rest ih => intro acc; simp [GestorPedidos.totalAcumulado, ih]; ring

/-! ## The claims -/

/-- C1: for every Container, `calcularPrecio` equals its `costoCaja` plus
the sum of `calcularPrecio` over its direct children, taken depth-first
and left-to-right; since the equation holds for every Container value, it
holds transitively through arbitrarily nested trees. -/
theorem calcularPrecio_caja_recursivo (r : Nat) (n : String) (costo : ℚ)
    (t : String) (cap : Nat) (contenido : List ElementoPedido) :
    calcularPrecio (.caja r n costo t cap contenido)
      = costo + (contenido.map calcularPrecio).sum := by
  simp [calcularPrecio, precioAcumulado_eq]

/-- C7: the concrete scenario: Peripherals (5.00 + 25.99 + 89.99) prices
at 120.98 and Shipment (10.00 + 120.98 + 45.00) at 175.98. -/
theorem escenario_concreto :
    calcularPrecio perifericos = 120.98 ∧ calcularPrecio envio = 175.98 := by
  constructor <;>
    · simp [perifericos, envio, mouse, teclado, libro, agregar, calcularPrecio,
        precioAcumulado]
      norm_num

/-- C8: an Item's `calcularPrecio` returns its `precio` unchanged (a pure
function of the node, with no failure value). -/
theorem calcularPrecio_producto (r : Nat) (n : String) (p : ℚ) (c : String) :
    calcularPrecio (.producto r n p c) = p := by
  simp [calcularPrecio]

/-- C9: on an order with no elements, `obtenerEstadisticas` reports
`precioPromedio = 0`: the division by `totalElementos` sits under a
`totalElementos > 0` guard. -/
theorem precioPromedio_pedido_vacio (num : String) :
    (GestorPedidos.obtenerEstadisticas ⟨num, []⟩).precioPromedio = 0 := by
  simp [GestorPedidos.obtenerEstadisticas]

/-- C10: a successful `agregar` on a non-full Container appends exactly the
given element at the end of `contenido` and changes nothing else: `ref`,
`nombre`, `costoCaja`, `tipoEmpaque`, `capacidadMaxima` and the earlier
entries are untouched, the appended element is the argument itself
(unmodified, no parent pointer exists in the model or the code), and no
diagnostic is emitted. -/
theorem agregar_no_llena (r : Nat) (n : String) (costo : ℚ) (t : String)
    (cap : Nat) (contenido : List ElementoPedido) (e : ElementoPedido)
    (h : contenido.length < cap) :
    agregar (.caja r n costo t cap contenido) e
      = (.caja r n costo t cap (contenido ++ [e]), none) := by
  simp [agregar, not_le.mpr h]

/-- Witness for C10 at a concrete non-full box. -/
theorem agregar_no_llena_witness :
    agregar (.caja 0 "B" 1 "E" 2 []) (.producto 1 "P" 3 "General")
      = (.caja 0 "B" 1 "E" 2 [.producto 1 "P" 3 "General"], none) :=
  agregar_no_llena 0 "B" 1 "E" 2 [] (.producto 1 "P" 3 "General") (by decide)

/-- Lemma: `aplicarOp` keeps every field of a `Caja` except `contenido`, and keeps
the content length within capacity. -/
theorem aplicarOp_caja (r : Nat) (n : String) (costo : ℚ) (t : String)
    (cap : Nat) (contenido : List ElementoPedido) (op : Op) :
    ∃ contenido', aplicarOp (.caja r n costo t cap contenido) op
        = .caja r n costo t cap contenido'
      ∧ (contenido.length ≤ cap → contenido'.length ≤ cap) := by
  cases op with
  | agregarOp e =>
    by_cases h : contenido.length ≥ cap
    · exact ⟨contenido, by simp [aplicarOp, agregar, h], fun hl => hl⟩
    · refine ⟨contenido ++ [e], by simp [aplicarOp, agregar, h], fun _ => ?_⟩
      push_neg at h
      simpa using h
  | removerOp e =>
    cases hidx : jsIndexOf e contenido with
    | some i =>
      exact ⟨contenido.eraseIdx i, by simp [aplicarOp, remover, hidx],
        fun hl => le_trans (List.length_eraseIdx_le contenido i) hl⟩
    | none => exact ⟨contenido, by simp [aplicarOp, remover, hidx], fun hl => hl⟩

/-- Any sequence of `agregar`/`remover` calls on a `Caja` leaves it a `Caja`
with the same fixed fields and a content length within capacity. -/
theorem aplicarOps_caja (r : Nat) (n : String) (costo : ℚ) (t : String)
    (cap : Nat) (ops : List Op) :
    ∀ contenido : List ElementoPedido, contenido.length ≤ cap →
    ∃ contenido', aplicarOps (.caja r n costo t cap contenido) ops
        = .caja r n costo t cap contenido'
      ∧ contenido'.length ≤ cap := by
  induction ops with
  | nil => intro c h; exact ⟨c, rfl, h⟩
  | cons op rest ih =>
    intro c h
    obtain ⟨c1, h1, h2⟩ := aplicarOp_caja r n costo t cap c op
    obtain ⟨c2, h3, h4⟩ := ih c1 (h2 h)
    refine ⟨c2, ?_, h4⟩
    simpa [aplicarOps, h1] using h3

/-- C2: a Container built with a positive capacity keeps
`contenido.length ≤ capacidadMaxima` through any sequence of `agregar` and
`remover` calls, and an `agregar` on a full Container changes nothing and
emits the `CapacityExceeded` diagnostic. -/
theorem capacidad_invariante (r : Nat) (n : String) (costo : ℚ) (t : String)
    (cap : Nat) (_hcap : 0 < cap) (ops : List Op) :
    (contenidoDe (aplicarOps (.caja r n costo t cap []) ops)).length ≤ cap
    ∧ ∀ (contenido : List ElementoPedido) (e : ElementoPedido),
        cap ≤ contenido.length →
        agregar (.caja r n costo t cap contenido) e
          = (.caja r n costo t cap contenido, some .capacityExceeded) := by
  refine ⟨?_, ?_⟩
  · obtain ⟨c', h1, h2⟩ := aplicarOps_caja r n costo t cap ops [] (by simp)
    rw [h1]
    simpa [contenidoDe] using h2
  · intro contenido e h
    simp [agregar, h]

/-- Witness for C2: a capacity-1 box survives two insertion attempts with
at most one element. -/
theorem capacidad_invariante_witness :
    (contenidoDe (aplicarOps (.caja 0 "W" 1 "E" 1 [])
        [Op.agregarOp (.producto 1 "P" 2 "General"),
         Op.agregarOp (.producto 2 "Q" 3 "General")])).length ≤ 1 :=
  (capacidad_invariante 0 "W" 1 "E" 1 (by decide)
    [Op.agregarOp (.producto 1 "P" 2 "General"),
     Op.agregarOp (.producto 2 "Q" 3 "General")]).1

/-- Summing the mapped prices after updating position `i` subtracts the old
entry's price and adds the new one. -/
theorem sum_map_set (f : ElementoPedido → ℚ) :
    ∀ (l : List ElementoPedido) (i : Nat) (h : i < l.length) (x : ElementoPedido),
    ((l.set i x).map f).sum = (l.map f).sum - f (l.get ⟨i, h⟩) + f x := by
  intro l
  induction l with
  | nil => intro i h; simp at h
  | cons a rest ih =>
    intro i h x
    cases i with
    | zero =>
      simp [List.set]
      ring
    | succ j =>
      have hj : j < rest.length := by simpa using h
      have ihj := ih j hj x
      simp only [List.get_eq_getElem] at ihj ⊢
      simp only [List.set_cons_succ, List.map_cons, List.sum_cons,
        List.getElem_cons_succ]
      rw [ihj]
      ring

/-- C3: the order total is the sum of the prices of its current top-level
elements; `agregarElemento` raises the total by exactly the new element's
price; and replacing the element at position `i` by a mutated version
shifts the total by the price difference — the total is recomputed from
the live tree, never from a snapshot. -/
theorem precioTotal_aditivo (g : GestorPedidos) (e e2 : ElementoPedido)
    (i : Nat) (h : i < g.elementos.length) :
    GestorPedidos.calcularPrecioTotal g = (g.elementos.map calcularPrecio).sum
    ∧ GestorPedidos.calcularPrecioTotal (g.agregarElemento e)
        = GestorPedidos.calcularPrecioTotal g + calcularPrecio e
    ∧ GestorPedidos.calcularPrecioTotal ⟨g.numeroPedido, g.elementos.set i e2⟩
        = GestorPedidos.calcularPrecioTotal g
          - calcularPrecio (g.elementos.get ⟨i, h⟩) + calcularPrecio e2 := by
  refine ⟨?_, ?_, ?_⟩
  · simp [GestorPedidos.calcularPrecioTotal, totalAcumulado_eq]
  · simp [GestorPedidos.calcularPrecioTotal, GestorPedidos.agregarElemento,
      totalAcumulado_eq]
  · simp only [GestorPedidos.calcularPrecioTotal, totalAcumulado_eq]
    rw [sum_map_set calcularPrecio g.elementos i h e2]
    ring

/-- Witness for C3 on a one-element order. -/
theorem precioTotal_aditivo_witness :
    GestorPedidos.calcularPrecioTotal ⟨"P1", [ElementoPedido.producto 1 "P" 2 "General"]⟩
      = ([ElementoPedido.producto 1 "P" 2 "General"].map calcularPrecio).sum :=
  (precioTotal_aditivo ⟨"P1", [ElementoPedido.producto 1 "P" 2 "General"]⟩
    (.producto 2 "Q" 3 "General") (.producto 3 "R" 4 "General") 0 (by decide)).1

/-- Lemma: `indexOf` misses a list none of whose entries is `===` to the target. -/
theorem jsIndexOf_eq_none (e : ElementoPedido) (l : List ElementoPedido)
    (h : ∀ y ∈ l, y.refDe ≠ e.refDe) : jsIndexOf e l = none := by
  induction l with
  | nil => rfl
  | cons x xs ih =>
    have hx : x.refDe ≠ e.refDe := h x (by simp)
    have ihs := ih fun y hy => h y (by simp [hy])
    simp [jsIndexOf, if_neg hx, ihs]

/-- Lemma: `indexOf` finds the first `===` occurrence: with no match in `l₁` and a
match at `x`, the index is `l₁.length`. -/
theorem jsIndexOf_append (e x : ElementoPedido) (l₁ l₂ : List ElementoPedido)
    (hx : x.refDe = e.refDe) (h1 : ∀ y ∈ l₁, y.refDe ≠ e.refDe) :
    jsIndexOf e (l₁ ++ x :: l₂) = some l₁.length := by
  induction l₁ with
  | nil => simp [jsIndexOf, hx]
  | cons a as ih =>
    have ha : a.refDe ≠ e.refDe := h1 a (by simp)
    have ihs := ih fun y hy => h1 y (by simp [hy])
    simp [jsIndexOf, if_neg ha, ihs]

/-- Lemma: `splice(l₁.length, 1)` on `l₁ ++ x :: l₂` deletes exactly `x`. -/
theorem eraseIdx_append_length (l₁ l₂ : List ElementoPedido) (x : ElementoPedido) :
    (l₁ ++ x :: l₂).eraseIdx l₁.length = l₁ ++ l₂ := by
  induction l₁ with
  | nil => rfl
  | cons a as ih => simp [List.eraseIdx, ih]

/-- C4 (amended): `remover` removes the first reference-identical (`===`)
occurrence of the element; when no reference-identical occurrence is
present — even if a structurally identical one is — it leaves the contents
unchanged and emits the `NotFound` diagnostic. -/
theorem remover_primera_referencia (r : Nat) (n : String) (costo : ℚ)
    (t : String) (cap : Nat) (e x : ElementoPedido)
    (l₁ l₂ : List ElementoPedido) (hx : x.refDe = e.refDe)
    (h1 : ∀ y ∈ l₁, y.refDe ≠ e.refDe) :
    remover (.caja r n costo t cap (l₁ ++ x :: l₂)) e
        = (.caja r n costo t cap (l₁ ++ l₂), none)
    ∧ ∀ l : List ElementoPedido, (∀ y ∈ l, y.refDe ≠ e.refDe) →
        remover (.caja r n costo t cap l) e
          = (.caja r n costo t cap l, some .notFound) := by
  constructor
  · simp [remover, jsIndexOf_append e x l₁ l₂ hx h1, eraseIdx_append_length]
  · intro l hl
    simp [remover, jsIndexOf_eq_none e l hl]

/-- Witness for the amended C4: removing the sole occupant of a box by the
very same reference. -/
theorem remover_primera_referencia_witness :
    remover (.caja 2 "B" 1 "E" 3 [.producto 1 "P" 2 "General"])
        (.producto 1 "P" 2 "General")
      = (.caja 2 "B" 1 "E" 3 [], none) :=
  (remover_primera_referencia 2 "B" 1 "E" 3 (.producto 1 "P" 2 "General")
    (.producto 1 "P" 2 "General") [] [] rfl (by simp)).1

/-- Counterexample to C4 as stated: the box holds a `Producto` that is
structurally identical to — but a different object (`ref` tag) from — the
argument; the claim demands that this occurrence be removed, yet the code
(whose `indexOf` compares with `===` only) reports `NotFound` and leaves
the contents unchanged. -/
theorem remover_estructural_contraejemplo :
    structEq (.producto 1 "A" 1 "General") (.producto 2 "A" 1 "General") = true
    ∧ remover (.caja 3 "B" 2 "E" 10 [.producto 1 "A" 1 "General"])
        (.producto 2 "A" 1 "General")
      = (.caja 3 "B" 2 "E" 10 [.producto 1 "A" 1 "General"], some .notFound) := by
  constructor
  · simp only [structEq]
    decide
  · simp [remover, jsIndexOf, refDe]

/-- C5: `obtenerTodosLosProductos` on a Container's contents is exactly the
depth-first, left-to-right preorder of the subtree filtered to the
`Producto` leaves, and its length is the number of `Producto` leaves
anywhere in the subtree. -/
theorem obtenerTodosLosProductos_espec (contenido : List ElementoPedido) :
    obtenerTodosLosProductos contenido = (preordenL contenido).filter esProducto
    ∧ (obtenerTodosLosProductos contenido).length = contarHojasProducto contenido := by
  induction contenido using obtenerTodosLosProductos.induct with
  | case1 => simp [obtenerTodosLosProductos, preordenL, contarHojasProducto]
  | case2 r n p c rest ih =>
    constructor
    · simp only [obtenerTodosLosProductos, preordenL, preordenE, List.cons_append,
        List.nil_append, List.filter_cons]
      simp [esProducto, ih.1]
    · simp only [obtenerTodosLosProductos, contarHojasProducto, List.length_cons]
      rw [ih.2]
      omega
  | case3 r n costo t cap contenido rest ih1 ih2 =>
    constructor
    · simp only [obtenerTodosLosProductos, preordenL, preordenE, List.cons_append,
        List.filter_append, List.filter_cons]
      simp [esProducto, ih1.1, ih2.1]
    · simp only [obtenerTodosLosProductos, contarHojasProducto, List.length_append]
      rw [ih1.2, ih2.2]

/-- Lemma: `String.join` peels off its head summand. -/
theorem join_cons_str (a : String) (l : List String) :
    String.join (a :: l) = a ++ String.join l := by
  apply String.ext
  simp [String.join_eq, String.data_append]

/-- The `obtenerDescripcion` child loop appends, to the running string, the
children's descriptions each preceded by a newline, in order. -/
theorem descripcionHijos_eq (l : List ElementoPedido) :
    ∀ (acc : String) (nivel : Nat),
    descripcionHijos acc l nivel
      = acc ++ String.join (l.map fun e => "\n" ++ obtenerDescripcion e nivel) := by
  induction l with
  | nil =>
    intro acc nivel
    simp [descripcionHijos, String.join, String.append_empty]
  | cons e rest ih =>
    intro acc nivel
    calc descripcionHijos acc (e :: rest) nivel
        = descripcionHijos (acc ++ "\n" ++ obtenerDescripcion e nivel) rest nivel := by
          simp [descripcionHijos]
      _ = (acc ++ "\n" ++ obtenerDescripcion e nivel)
            ++ String.join (rest.map fun x => "\n" ++ obtenerDescripcion x nivel) :=
          ih _ nivel
      _ = acc ++ String.join ((e :: rest).map fun x => "\n" ++ obtenerDescripcion x nivel) := by
          rw [List.map_cons, join_cons_str]
          simp [String.append_assoc]

/-- Lemma: `generarIndentacion` produces exactly two spaces per nesting level. -/
theorem generarIndentacion_eq (nivel : Nat) :
    generarIndentacion nivel = String.mk (List.replicate (2 * nivel) ' ') := by
  induction nivel with
  | zero => rfl
  | succ k ih =>
    show "  " ++ generarIndentacion k = _
    rw [ih]
    apply String.ext
    rw [String.data_append]
    show ' ' :: ' ' :: List.replicate (2 * k) ' ' = _
    have h2 : 2 * (k + 1) = 2 * k + 1 + 1 := by ring
    rw [h2, List.replicate_succ, List.replicate_succ]

/-- C6: a Container's description is its own single header line — the
indentation for `nivel`, the name, the packaging type, the handling cost
to two decimals, then either the ` (vacía)` marker (empty contents) or the
`current/max` occupancy — followed by each child's description at
`nivel + 1`, in insertion order, each on a new line; and the indentation
unit is exactly two spaces per nesting level. -/
theorem obtenerDescripcion_caja (r : Nat) (n : String) (costo : ℚ) (t : String)
    (cap : Nat) (contenido : List ElementoPedido) (nivel : Nat) :
    obtenerDescripcion (.caja r n costo t cap contenido) nivel
      = (generarIndentacion nivel ++ "📦 Caja: " ++ n ++ " (" ++ t
          ++ ") - Costo base: $" ++ toFixed2 costo
          ++ (if contenido.length = 0 then " (vacía)"
              else " (" ++ toString contenido.length ++ "/" ++ toString cap
                ++ " elementos):"))
        ++ String.join (contenido.map fun e => "\n" ++ obtenerDescripcion e (nivel + 1))
    ∧ generarIndentacion nivel = String.mk (List.replicate (2 * nivel) ' ') := by
  refine ⟨?_, generarIndentacion_eq nivel⟩
  by_cases hc : contenido.length = 0
  · have hnil : contenido = [] := List.length_eq_zero.mp hc
    subst hnil
    simp [obtenerDescripcion, String.join, String.append_empty]
  · simp only [obtenerDescripcion]
    rw [if_neg hc, if_neg hc, descripcionHijos_eq]
    simp [String.append_assoc]
